import Mathlib

/-!
Shallow embedding of the flicksqueeze media-library optimizer core,
translated from the Go sources:

* `internal/paths/paths.go` — path policy (OutputPath, IsWorkFile, IsOurComment);
* the scanner index store (`pathKey`, `idxReader.advanceTo`, `prepareIndex`);
* the scanner walk body (`Scan`'s per-file visitor, `codecWasteMultiplier`);
* the validator (`Validate`);
* the lock manager (`acquireLock`);
* the orchestrator candidate processor (`processCandidate`).

Modelling conventions: Go `int64` becomes `Int`; Go `float64` durations
become `Rat`, and the one-decimal float waste multipliers are embedded
exactly as integer tenths (see `codecWaste`); Go `time.Time` becomes a
`sec`/`nsec` pair; filesystem and subprocess effects are taken as explicit
inputs, and the operations a function performs are returned as an explicit
trace list.
Unicode-aware Go string folding (`strings.EqualFold`, `strings.ToLower`) is
modelled by ASCII case folding, which is exact on the ASCII extension and
codec names these functions are applied to.
-/

/-- Byte-wise (codepoint-wise) lexicographic strict order on char lists;
this is Go's `<` on strings (UTF-8 byte order agrees with codepoint order). -/
def strLtB : List Char → List Char → Bool
  | [], [] => false
  | [], _ :: _ => true
  | _ :: _, [] => false
  | a :: as, b :: bs =>
    if a.toNat < b.toNat then true
    else if b.toNat < a.toNat then false
    else strLtB as bs

/-- ASCII lowercase of a string, char by char (`strings.ToLower` restricted to
the ASCII names it is applied to in this program). -/
def toLowerStr (s : String) : String := ⟨s.data.map Char.toLower⟩

/-- Case-insensitive string equality (`strings.EqualFold`, ASCII fold). -/
def equalFold (a b : String) : Bool := a.data.map Char.toLower = b.data.map Char.toLower

/-- Does `sub` occur as a contiguous substring of `l` (`strings.Contains`)? -/
def containsSubL (l sub : List Char) : Bool :=
  match l with
  | [] => sub.isEmpty
  | _ :: rest => sub.isPrefixOf l || containsSubL rest sub

/-- String-level substring test (`strings.Contains`). -/
def containsSub (s sub : String) : Bool := containsSubL s.data sub.data

/-- Go `time.Time` wall clock: whole seconds plus nanoseconds. -/
structure GoTime where
  sec : Int
  nsec : Int
deriving DecidableEq, Repr

/-- Go `t.Truncate(time.Second)`: zero the sub-second part. -/
def GoTime.truncSec (t : GoTime) : GoTime := ⟨t.sec, 0⟩

/-- Go `a.After(b)`: strict instant comparison. -/
def GoTime.after (a b : GoTime) : Bool :=
  decide (b.sec < a.sec) || (decide (a.sec = b.sec) && decide (b.nsec < a.nsec))

/-! ## Path policy — `internal/paths/paths.go` -/

/-- Constant `MinSize = 10 * 1024 * 1024` (scanner filter and validator floor). -/
def MinSize : Int := 10 * 1024 * 1024

/-- Constant `OutputExt = ".mkv"`. -/
def OutputExt : String := ".mkv"

/-- Constant `AV1TmpTag = ".av1tmp"`. -/
def AV1TmpTag : String := ".av1tmp"

/-- Constant `MetaComment`, the AV1 final comment tag. -/
def MetaComment : String := "converted to av1 with flicksqueeze"

/-- Constant `HEVCMetaComment`, the HEVC intermediate comment tag. -/
def HEVCMetaComment : String := "hevc pass by flicksqueeze - av1 pending"

/-- Scan a reversed character list for `filepath.Ext`: `k` counts characters
already passed (those after the candidate dot); the result is the length of
the extension including its dot, `0` when there is none (separator reached or
string exhausted first). This mirrors Go's backward scan in `filepath.Ext`. -/
def extLenRev : List Char → Nat → Nat
  | [], _ => 0
  | c :: rest, k => if c = '/' then 0 else if c = '.' then k + 1 else extLenRev rest (k + 1)

/-- Length (in characters, dot included) of `filepath.Ext inPath`. -/
def extLen (p : String) : Nat := extLenRev p.data.reverse 0

/-- Go `filepath.Ext(path)`: the suffix starting at the final dot in the final
slash-separated element; empty when there is no dot. -/
def filepathExt (p : String) : String := ⟨p.data.drop (p.data.length - extLen p)⟩

/-- The stem `inPath[:len(inPath)-len(ext)]` used by `OutputPath`. -/
def stemOf (p : String) : String := ⟨p.data.take (p.data.length - extLen p)⟩

/-- `paths.OutputPath`: non-`.mkv` inputs get a `.mkv` extension; `.mkv`
inputs (case-insensitively) get `.av1tmp.mkv`. -/
def OutputPath (p : String) : String :=
  if equalFold (filepathExt p) OutputExt then stemOf p ++ AV1TmpTag ++ OutputExt
  else stemOf p ++ OutputExt

/-- Go `filepath.Base` for the slashless-suffix case the scanner uses: the
characters after the final separator. -/
def baseName (p : String) : String := ⟨(p.data.reverse.takeWhile (fun c => c ≠ '/')).reverse⟩

/-- `paths.IsWorkFile`: the basename contains one of the work-product tags
`.av1tmp`, `.tmp-`, `_deleteMe`. -/
def IsWorkFile (basename : String) : Bool :=
  containsSub basename AV1TmpTag || containsSub basename ".tmp-" ||
    containsSub basename "_deleteMe"

/-- `paths.IsOurComment`: the container comment is one of the two tool tags. -/
def IsOurComment (comment : String) : Bool :=
  comment == MetaComment || comment == HEVCMetaComment

/-! ## Index store — scanner `pathKey`, `idxReader`, `prepareIndex` -/

/-- `pathKey` replaces the path separator with byte `0x00`, which sorts before
every other byte a filename may contain. -/
def pathKey (p : String) : List Char :=
  p.data.map (fun c => if c = '/' then Char.ofNat 0 else c)

/-- One parsed index entry: codec, mtime, size (the path is kept beside it as
the reader's `curPath`). Entries parsed from disk carry whole-second mtimes. -/
structure IdxEntry where
  codec : String
  modTime : GoTime
  size : Int
deriving DecidableEq, Repr

/-- The streaming reader state: the cursor entry followed by the unread rest,
as the list of `(curPath, entry)` pairs the scanner would deliver in order. -/
abbrev IdxState := List (String × IdxEntry)

/-- `idxReader.advanceTo(path, modTime, size)`: consume entries while
`pathKey(curPath) < pathKey(path)`; a miss (cursor exhausted or path not
equal) leaves the cursor; on path equality the entry is consumed and it is a
hit iff size matches and the stored mtime equals the request truncated to
seconds. Returns `((codec, hit), new state)`. -/
def advanceTo : IdxState → String → GoTime → Int → (String × Bool) × IdxState
  | [], _, _, _ => (("", false), [])
  | (p, e) :: rest, path, mod, size =>
    if strLtB (pathKey p) (pathKey path) then advanceTo rest path mod size
    else if p = path then
      if e.size = size ∧ e.modTime = mod.truncSec then ((e.codec, true), rest)
      else (("", false), rest)
    else (("", false), (p, e) :: rest)

/-- An index file on disk: its byte size (what `prepareIndex` compares) and
the entries a reader would parse from it. -/
structure IdxFile where
  size : Int
  entries : IdxState
deriving DecidableEq

/-- The two index paths' state: `base` is `.flicksqueeze-<host>.idx`, `tmp`
is `.flicksqueeze-<host>.idx.tmp`; `none` means the file does not exist. -/
structure IdxFsState where
  base : Option IdxFile
  tmp : Option IdxFile
deriving DecidableEq

/-- `prepareIndex`: stat both generations; with both present the
larger-or-equal base wins (remove tmp, rename base over it) else the larger
tmp stays and base is removed; with only base present it is renamed to tmp;
otherwise nothing changes. The reader source is the `tmp` slot. -/
def prepareIndex (s : IdxFsState) : IdxFsState :=
  match s.base, s.tmp with
  | none, none => s
  | none, some _ => s
  | some b, none => { base := none, tmp := some b }
  | some b, some t =>
    if b.size ≥ t.size then { base := none, tmp := some b }
    else { base := none, tmp := some t }

/-- `openReader` on the reader source: a missing file yields the empty
reader; otherwise the file's parsed entries (header checking abstracted). -/
def openReaderEntries : Option IdxFile → IdxState
  | none => []
  | some f => f.entries

/-! ## Scanner walk body — `Scan`'s per-file visitor -/

/-- The movie-container extension allow-list. -/
def movieExtensions : List String :=
  [".mp4", ".mkv", ".avi", ".mov", ".wmv", ".flv", ".m4v", ".mpg",
   ".mpeg", ".ts", ".webm", ".vob"]

/-- The codec-waste multiplier table (`codecWaste`). Every multiplier in the
source is a float with exactly one decimal digit (4.0, 3.5, 3.0, 2.5, 2.0,
1.4, 1.3), so it is embedded exactly as an integer number of tenths: the
stored value is ten times the source constant, making every waste-score
equality and ordering fact identical to the source's (a common positive
scale factor preserves both). -/
def codecWaste : List (String × Int) :=
  [("mpeg1video", 40), ("mpeg2video", 40),
   ("msmpeg4v1", 35), ("msmpeg4v2", 35), ("msmpeg4v3", 35),
   ("wmv1", 35), ("wmv2", 35), ("wmv3", 35),
   ("mpeg4", 30), ("vp8", 25), ("h264", 20), ("hevc", 14), ("vp9", 13)]

/-- `codecWasteMultiplier`, in tenths: case-insensitive table lookup,
default `2.0` (i.e. 20 tenths). -/
def codecWasteMultiplier (codec : String) : Int :=
  match codecWaste.lookup (toLowerStr codec) with
  | some m => m
  | none => 20

/-- A scanner `Candidate`. `wasteScore` is held in tenths (see
`codecWaste`). -/
structure Candidate where
  path : String
  size : Int
  codec : String
  wasteScore : Int
deriving DecidableEq, Repr

/-- The candidate built by `Scan`'s `enqueue` closure:
`wasteScore = float64(sz) * codecWasteMultiplier(codec)` (in tenths). -/
def mkCandidate (path codec : String) (sz : Int) : Candidate :=
  { path := path, size := sz, codec := codec,
    wasteScore := sz * codecWasteMultiplier codec }

/-- Observable actions of the per-file visitor. -/
inductive Eff where
  | probe (path : String)
  | readComment (path : String)
  | writeIdx (path codec : String) (mod : GoTime) (size : Int)
  | enqueue (c : Candidate)
deriving DecidableEq, Repr

/-- Per-file inputs of the walk visitor: stat results plus the outcomes of
the filesystem and probe calls the body may make. -/
structure FileVisit where
  path : String
  sz : Int
  mod : GoTime
  infoOk : Bool
  inFailures : Bool
  locked : Bool
  outExists : Bool
  probeRes : Except String String
  commentRes : String
deriving Repr

/-- The body of `Scan`'s walk visitor for a regular file, with the reader
state threaded explicitly and the performed actions returned as a trace:
extension / work-file / failure-list / lock filters, then `advanceTo`; a hit
rewrites the cached codec and enqueues unless filtered; a miss probes (only
when big and old enough), records `X` on probe failure, turns an `av1` with
our comment into `flicksqueeze`, and otherwise enqueues unless the output
already exists. -/
def visitFile (r : IdxState) (cutoff : GoTime) (f : FileVisit) : List Eff × IdxState :=
  if ¬ movieExtensions.contains (toLowerStr (filepathExt f.path)) then ([], r)
  else if IsWorkFile (baseName f.path) then ([], r)
  else if f.inFailures then ([], r)
  else if f.locked then ([], r)
  else if ¬ f.infoOk then ([], r)
  else
    let res := advanceTo r f.path f.mod f.sz
    let r' := res.2
    let cached := res.1.1
    if res.1.2 then
      if f.sz < MinSize ∨ f.mod.after cutoff = true ∨ cached = "X" ∨ cached = "av1" ∨
          cached = "flicksqueeze" then
        ([Eff.writeIdx f.path cached f.mod f.sz], r')
      else if f.outExists then ([Eff.writeIdx f.path cached f.mod f.sz], r')
      else ([Eff.writeIdx f.path cached f.mod f.sz,
             Eff.enqueue (mkCandidate f.path cached f.sz)], r')
    else
      if f.sz < MinSize ∨ f.mod.after cutoff = true then ([], r')
      else
        match f.probeRes with
        | Except.error _ => ([Eff.probe f.path, Eff.writeIdx f.path "X" f.mod f.sz], r')
        | Except.ok probed =>
          let codec := toLowerStr probed
          if codec = "av1" then
            let codec2 := if f.commentRes = MetaComment then "flicksqueeze" else codec
            ([Eff.probe f.path, Eff.readComment f.path,
              Eff.writeIdx f.path codec2 f.mod f.sz], r')
          else if f.outExists then
            ([Eff.probe f.path, Eff.writeIdx f.path codec f.mod f.sz], r')
          else
            ([Eff.probe f.path, Eff.writeIdx f.path codec f.mod f.sz,
              Eff.enqueue (mkCandidate f.path codec f.sz)], r')

/-! ## Validator — `validator.Validate` -/

/-- Constant `maxDurationDrift = 5.0` seconds. -/
def maxDurationDrift : Rat := 5

/-- Filesystem / probe operations the validator may perform. The type also
lists file removal so that its absence from every validator trace is a
statement about the code, not about the type. -/
inductive VOp where
  | statOut (path : String)
  | probeDur (path : String)
  | removeFile (path : String)
deriving DecidableEq, Repr

/-- `validator.Validate(inputPath, outputPath, inputSize)` with the stat and
the two duration probes supplied as oracle results (`Except.error` is the
call failing). Returns the error (`none` is success) and the trace of
operations actually performed, in order. -/
def Validate (inputPath outputPath : String) (inputSize : Int)
    (statOut : Except String Int) (inDur outDur : Except String Rat) :
    Option String × List VOp :=
  match statOut with
  | Except.error e => (some ("cannot stat output: " ++ e), [VOp.statOut outputPath])
  | Except.ok outSize =>
    if outSize ≥ inputSize then
      (some "output is not smaller than input", [VOp.statOut outputPath])
    else if outSize < MinSize then
      (some "output too small, likely corrupt", [VOp.statOut outputPath])
    else
      match inDur with
      | Except.error e =>
        (some ("cannot probe input duration: " ++ e),
         [VOp.statOut outputPath, VOp.probeDur inputPath])
      | Except.ok din =>
        match outDur with
        | Except.error e =>
          (some ("cannot probe output duration: " ++ e),
           [VOp.statOut outputPath, VOp.probeDur inputPath, VOp.probeDur outputPath])
        | Except.ok dout =>
          if |din - dout| > maxDurationDrift then
            (some "duration mismatch",
             [VOp.statOut outputPath, VOp.probeDur inputPath, VOp.probeDur outputPath])
          else
            (none, [VOp.statOut outputPath, VOp.probeDur inputPath, VOp.probeDur outputPath])

/-! ## Lock manager — `acquireLock` -/

/-- Outcome of one `tryCreateLock` attempt (create-exclusive + write). -/
inductive CreateRes where
  | ok
  | errExist
  | errOther (msg : String)
deriving DecidableEq, Repr

/-- Lock-file operations performed by `acquireLock`, in order. -/
inductive LockOp where
  | create (path : String)
  | statLock (path : String)
  | removeLock (path : String)
deriving DecidableEq, Repr

/-- `acquireLock(fsys, inputPath, timeout)` with the effectful primitives as
oracles: `firstCreate` is the first `tryCreateLock`, `statRes` the lock stat
(mtime), `secondCreate` the retry after breaking a stale lock. `now - mtime`
is Go's `time.Since(info.ModTime())`. Returns the outcome and the trace. -/
def acquireLock (inputPath : String) (timeout now : Int)
    (firstCreate : CreateRes) (statRes : Except String Int)
    (secondCreate : CreateRes) : Except String Unit × List LockOp :=
  let lockPath := inputPath ++ ".flsq-lock"
  match firstCreate with
  | CreateRes.ok => (Except.ok (), [LockOp.create lockPath])
  | CreateRes.errOther e => (Except.error ("lock error: " ++ e), [LockOp.create lockPath])
  | CreateRes.errExist =>
    match statRes with
    | Except.error e =>
      (Except.error ("cannot stat lock: " ++ e),
       [LockOp.create lockPath, LockOp.statLock lockPath])
    | Except.ok mtime =>
      if now - mtime < timeout then
        (Except.error "locked by another instance",
         [LockOp.create lockPath, LockOp.statLock lockPath])
      else
        match secondCreate with
        | CreateRes.ok =>
          (Except.ok (),
           [LockOp.create lockPath, LockOp.statLock lockPath,
            LockOp.removeLock lockPath, LockOp.create lockPath])
        | CreateRes.errExist =>
          (Except.error "lock retry failed: file exists",
           [LockOp.create lockPath, LockOp.statLock lockPath,
            LockOp.removeLock lockPath, LockOp.create lockPath])
        | CreateRes.errOther e =>
          (Except.error ("lock retry failed: " ++ e),
           [LockOp.create lockPath, LockOp.statLock lockPath,
            LockOp.removeLock lockPath, LockOp.create lockPath])

/-! ## Orchestrator — `processCandidate` -/

/-- Observable actions of the orchestrator's candidate processor. -/
inductive OOp where
  | removeFile (path : String)
  | markFailed (path : String)
  | encode (input output : String)
  | finishConv (input output : String)
  | readComment (path : String)
deriving DecidableEq, Repr

/-- Oracle results for the effectful calls `processCandidate` makes. -/
structure ProcEnv where
  lockRes : Except String Unit
  statIn : Except String Int
  outExists : Bool
  outComment : String
  validateExisting : Option String
  encodeRes : Option String
  validateNew : Option String
  ctxCancelled : Bool
deriving Repr

/-- The encode / validate / finish tail of `processCandidate` (reached only
when no foreign output blocks the candidate): encode, remove the output and
mark failure on encode error (unless the context is cancelled), validate,
remove the output and mark failure on validation error (same caveat),
otherwise finish the conversion. -/
def procEncodeTail (c : Candidate) (outPath : String) (env : ProcEnv) : List OOp :=
  match env.encodeRes with
  | some _ =>
    [OOp.encode c.path outPath, OOp.removeFile outPath] ++
      (if env.ctxCancelled then [] else [OOp.markFailed c.path])
  | none =>
    match env.validateNew with
    | some _ =>
      [OOp.encode c.path outPath, OOp.removeFile outPath] ++
        (if env.ctxCancelled then [] else [OOp.markFailed c.path])
    | none => [OOp.encode c.path outPath, OOp.finishConv c.path outPath]

/-- `processCandidate`: lock with the size-derived timeout (failure skips);
re-stat the input (gone or size changed skips); when the output path exists,
read its comment — a foreign comment skips the candidate, our comment either
finishes a validated previous run or removes the stale output and proceeds;
then encode and validate as in `procEncodeTail`. -/
def processCandidate (c : Candidate) (env : ProcEnv) : List OOp :=
  match env.lockRes with
  | Except.error _ => []
  | Except.ok _ =>
    match env.statIn with
    | Except.error _ => []
    | Except.ok sz =>
      if sz ≠ c.size then []
      else
        let outPath := OutputPath c.path
        if env.outExists then
          if IsOurComment env.outComment = false then [OOp.readComment outPath]
          else if env.validateExisting = none then
            [OOp.readComment outPath, OOp.readComment outPath,
             OOp.finishConv c.path outPath]
          else
            [OOp.readComment outPath, OOp.removeFile outPath] ++
              procEncodeTail c outPath env
        else procEncodeTail c outPath env

/-! ## Helper lemmas: path policy -/

theorem strAppend_assoc (a b c : String) : (a ++ b) ++ c = a ++ (b ++ c) := by
  apply String.ext
  simp [String.data_append]

theorem extLenRev_mkv (t : List Char) (k : Nat) :
    extLenRev ('v' :: 'k' :: 'm' :: '.' :: t) k = k + 4 := by
  simp [extLenRev]

theorem extLen_append_mkv (s : String) : extLen (s ++ OutputExt) = 4 := by
  show extLenRev (s.data ++ OutputExt.data).reverse 0 = 4
  rw [List.reverse_append]
  exact extLenRev_mkv s.data.reverse 0

theorem ext_append_mkv (s : String) : filepathExt (s ++ OutputExt) = OutputExt := by
  show (⟨(s.data ++ OutputExt.data).drop
    ((s.data ++ OutputExt.data).length - extLen (s ++ OutputExt))⟩ : String) = OutputExt
  rw [extLen_append_mkv]
  simp only [List.length_append]
  show (⟨(s.data ++ OutputExt.data).drop (s.data.length + 4 - 4)⟩ : String) = OutputExt
  rw [Nat.add_sub_cancel, List.drop_left]

theorem stem_append_mkv (s : String) : stemOf (s ++ OutputExt) = s := by
  show (⟨(s.data ++ OutputExt.data).take
    ((s.data ++ OutputExt.data).length - extLen (s ++ OutputExt))⟩ : String) = s
  rw [extLen_append_mkv]
  simp only [List.length_append]
  show (⟨(s.data ++ OutputExt.data).take (s.data.length + 4 - 4)⟩ : String) = s
  rw [Nat.add_sub_cancel, List.take_left]

theorem outputPath_append_mkv (s : String) :
    OutputPath (s ++ OutputExt) = s ++ AV1TmpTag ++ OutputExt := by
  unfold OutputPath
  rw [ext_append_mkv, stem_append_mkv, if_pos (by decide)]

theorem extLen_dot3 (s : String) (c1 c2 c3 : Char)
    (h1 : c1 ≠ '/' ∧ c1 ≠ '.') (h2 : c2 ≠ '/' ∧ c2 ≠ '.') (h3 : c3 ≠ '/' ∧ c3 ≠ '.') :
    extLen (s ++ ⟨['.', c1, c2, c3]⟩) = 4 := by
  show extLenRev (s.data ++ ['.', c1, c2, c3]).reverse 0 = 4
  rw [List.reverse_append]
  simp [extLenRev, h1.1, h1.2, h2.1, h2.2, h3.1, h3.2]

theorem ext_dot3 (s : String) (c1 c2 c3 : Char)
    (h1 : c1 ≠ '/' ∧ c1 ≠ '.') (h2 : c2 ≠ '/' ∧ c2 ≠ '.') (h3 : c3 ≠ '/' ∧ c3 ≠ '.') :
    filepathExt (s ++ ⟨['.', c1, c2, c3]⟩) = ⟨['.', c1, c2, c3]⟩ := by
  show (⟨(s.data ++ ['.', c1, c2, c3]).drop
    ((s.data ++ ['.', c1, c2, c3]).length - extLen (s ++ ⟨['.', c1, c2, c3]⟩))⟩ : String) = _
  rw [extLen_dot3 s c1 c2 c3 h1 h2 h3]
  simp only [List.length_append, List.length_cons, List.length_nil]
  show (⟨(s.data ++ ['.', c1, c2, c3]).drop (s.data.length + 4 - 4)⟩ : String) = _
  rw [Nat.add_sub_cancel, List.drop_left]

theorem stem_dot3 (s : String) (c1 c2 c3 : Char)
    (h1 : c1 ≠ '/' ∧ c1 ≠ '.') (h2 : c2 ≠ '/' ∧ c2 ≠ '.') (h3 : c3 ≠ '/' ∧ c3 ≠ '.') :
    stemOf (s ++ ⟨['.', c1, c2, c3]⟩) = s := by
  show (⟨(s.data ++ ['.', c1, c2, c3]).take
    ((s.data ++ ['.', c1, c2, c3]).length - extLen (s ++ ⟨['.', c1, c2, c3]⟩))⟩ : String) = s
  rw [extLen_dot3 s c1 c2 c3 h1 h2 h3]
  simp only [List.length_append, List.length_cons, List.length_nil]
  show (⟨(s.data ++ ['.', c1, c2, c3]).take (s.data.length + 4 - 4)⟩ : String) = s
  rw [Nat.add_sub_cancel, List.take_left]

/-! ## Claim C3 — OutputPath under repeated application -/

/-- C3 counterexample: the claim says `OutputPath (OutputPath x)` equals
`OutputPath x` for a non-`.mkv` input and that the `.av1tmp.mkv` form is a
fixed point for a `.mkv` input; both fail at the concrete inputs `"a.avi"`
and `"b.mkv"`, where the second application inserts a further `.av1tmp`. -/
theorem outputPath_stabilize_cex :
    ¬ (OutputPath (OutputPath "a.avi") = OutputPath "a.avi") ∧
    ¬ (OutputPath (OutputPath "b.mkv") = OutputPath "b.mkv") := by
  constructor
  · decide
  · decide

/-- C3 (amended): `OutputPath` never stabilizes. A non-`.mkv` input maps to
`stem.mkv`, and a second application yields `stem.av1tmp.mkv`, not the same
result; a `.mkv` input maps to `stem.av1tmp.mkv` and a second application
yields `stem.av1tmp.av1tmp.mkv`; in general a second application always
differs from the first, inserting one more `.av1tmp` tag. -/
theorem outputPath_not_idempotent :
    (∀ p, equalFold (filepathExt p) OutputExt = false →
      OutputPath p = stemOf p ++ OutputExt ∧
      OutputPath (OutputPath p) = stemOf p ++ AV1TmpTag ++ OutputExt) ∧
    (∀ p, equalFold (filepathExt p) OutputExt = true →
      OutputPath p = stemOf p ++ AV1TmpTag ++ OutputExt ∧
      OutputPath (OutputPath p) = stemOf p ++ AV1TmpTag ++ AV1TmpTag ++ OutputExt) ∧
    (∀ p, OutputPath (OutputPath p) ≠ OutputPath p) := by
  have hone : ∀ p, OutputPath p = stemOf p ++ AV1TmpTag ++ OutputExt ∨
      OutputPath p = stemOf p ++ OutputExt := by
    intro p
    unfold OutputPath
    by_cases h : equalFold (filepathExt p) OutputExt
    · rw [if_pos h]; exact Or.inl rfl
    · rw [if_neg h]; exact Or.inr rfl
  refine ⟨?_, ?_, ?_⟩
  · intro p hp
    have h1 : OutputPath p = stemOf p ++ OutputExt := by
      unfold OutputPath; rw [hp]; simp
    refine ⟨h1, ?_⟩
    rw [h1, outputPath_append_mkv]
  · intro p hp
    have h1 : OutputPath p = stemOf p ++ AV1TmpTag ++ OutputExt := by
      unfold OutputPath; rw [hp]; simp
    refine ⟨h1, ?_⟩
    rw [h1, outputPath_append_mkv]
  · intro p
    rcases hone p with h | h <;>
      · rw [h, outputPath_append_mkv]
        intro hcontra
        have := congrArg (fun s => s.data.length) hcontra
        simp [String.data_append, AV1TmpTag, OutputExt] at this

/-- C3 witness: the amended statement applied at the concrete inputs
`"a.avi"` (non-`.mkv`) and `"b.mkv"` (`.mkv`). -/
theorem outputPath_not_idempotent_witness :
    (OutputPath "a.avi" = stemOf "a.avi" ++ OutputExt ∧
      OutputPath (OutputPath "a.avi") = stemOf "a.avi" ++ AV1TmpTag ++ OutputExt) ∧
    (OutputPath "b.mkv" = stemOf "b.mkv" ++ AV1TmpTag ++ OutputExt ∧
      OutputPath (OutputPath "b.mkv") =
        stemOf "b.mkv" ++ AV1TmpTag ++ AV1TmpTag ++ OutputExt) ∧
    OutputPath (OutputPath "c.ts") ≠ OutputPath "c.ts" :=
  ⟨outputPath_not_idempotent.1 "a.avi" (by decide),
   outputPath_not_idempotent.2.1 "b.mkv" (by decide),
   outputPath_not_idempotent.2.2 "c.ts"⟩

/-! ## Claim C10 — OutputPath is case-insensitive on the extension -/

/-- C10: the `.mkv` comparison in `OutputPath` folds case: every input whose
extension is a letter-case variant of `.mkv` maps to
`stem ++ ".av1tmp" ++ ".mkv"` (lowercase final extension), and every input
whose extension differs from `.mkv` under case folding maps to
`stem ++ ".mkv"`. -/
theorem outputPath_case_fold :
    (∀ (s : String) (c1 c2 c3 : Char),
      (c1 = 'm' ∨ c1 = 'M') → (c2 = 'k' ∨ c2 = 'K') → (c3 = 'v' ∨ c3 = 'V') →
      OutputPath (s ++ ⟨['.', c1, c2, c3]⟩) = s ++ AV1TmpTag ++ OutputExt) ∧
    (∀ p, equalFold (filepathExt p) OutputExt = false →
      OutputPath p = stemOf p ++ OutputExt) := by
  constructor
  · intro s c1 c2 c3 h1 h2 h3
    have n1 : c1 ≠ '/' ∧ c1 ≠ '.' := by rcases h1 with h | h <;> subst h <;> exact ⟨by decide, by decide⟩
    have n2 : c2 ≠ '/' ∧ c2 ≠ '.' := by rcases h2 with h | h <;> subst h <;> exact ⟨by decide, by decide⟩
    have n3 : c3 ≠ '/' ∧ c3 ≠ '.' := by rcases h3 with h | h <;> subst h <;> exact ⟨by decide, by decide⟩
    have hfold : equalFold (filepathExt (s ++ ⟨['.', c1, c2, c3]⟩)) OutputExt = true := by
      rw [ext_dot3 s c1 c2 c3 n1 n2 n3]
      rcases h1 with h | h <;> rcases h2 with h' | h' <;> rcases h3 with h'' | h'' <;>
        subst h <;> subst h' <;> subst h'' <;> decide
    unfold OutputPath
    rw [hfold, stem_dot3 s c1 c2 c3 n1 n2 n3]
    simp
  · intro p hp
    unfold OutputPath
    rw [hp]
    simp

/-- C10 witness: the uppercase-variant extension `".MKv"` on stem `"a"`
gets the `.av1tmp.mkv` form, and the non-`.mkv` input `"b.avi"` gets
`stem ++ ".mkv"`. -/
theorem outputPath_case_fold_witness :
    OutputPath ("a" ++ ⟨['.', 'M', 'K', 'v']⟩) = "a" ++ AV1TmpTag ++ OutputExt ∧
    OutputPath "b.avi" = stemOf "b.avi" ++ OutputExt :=
  ⟨outputPath_case_fold.1 "a" 'M' 'K' 'v' (by decide) (by decide) (by decide),
   outputPath_case_fold.2 "b.avi" (by decide)⟩

/-! ## Claim C1 — Validate success condition and no deletions -/

/-- C1: `Validate` returns no error iff the output stat succeeds with
`MinSize ≤ outSize < inputSize` and both duration probes succeed with the
durations within `maxDurationDrift = 5.0` seconds of each other; on any
failing condition it returns an error, and its operation trace never
contains a file removal. -/
theorem validate_ok_iff (ip op : String) (isz : Int) (st : Except String Int)
    (din dout : Except String Rat) :
    ((Validate ip op isz st din dout).1 = none ↔
      ((∃ osz, st = Except.ok osz ∧ MinSize ≤ osz ∧ osz < isz) ∧
       (∃ a b, din = Except.ok a ∧ dout = Except.ok b ∧ |a - b| ≤ maxDurationDrift))) ∧
    (∀ q, VOp.removeFile q ∉ (Validate ip op isz st din dout).2) := by
  cases st with
  | error e => simp [Validate]
  | ok osz =>
    by_cases h1 : osz ≥ isz
    · simp only [Validate, if_pos h1]
      constructor
      · simp only [reduceCtorEq, false_iff, not_and]
        rintro ⟨x, hx, hge, hlt⟩
        cases hx
        omega
      · intro q; simp
    · by_cases h2 : osz < MinSize
      · simp only [Validate, if_neg h1, if_pos h2]
        constructor
        · simp only [reduceCtorEq, false_iff, not_and]
          rintro ⟨x, hx, hge, hlt⟩
          cases hx
          omega
        · intro q; simp
      · cases din with
        | error e =>
          simp only [Validate, if_neg h1, if_neg h2]
          constructor
          · simp
          · intro q; simp
        | ok a =>
          cases dout with
          | error e =>
            simp only [Validate, if_neg h1, if_neg h2]
            constructor
            · simp
            · intro q; simp
          | ok b =>
            by_cases h3 : |a - b| > maxDurationDrift
            · simp only [Validate, if_neg h1, if_neg h2, if_pos h3]
              constructor
              · simp only [reduceCtorEq, false_iff, not_and]
                rintro ⟨x, hx, hge, hlt⟩ ⟨u, v, hu, hv, hle⟩
                cases hu; cases hv
                exact absurd hle (not_le.mpr h3)
              · intro q; simp
            · simp only [Validate, if_neg h1, if_neg h2, if_neg h3]
              constructor
              · simp only [true_iff]
                exact ⟨⟨osz, rfl, by omega, by omega⟩, ⟨a, b, rfl, rfl, le_of_not_lt h3⟩⟩
              · intro q; simp

/-- C1 witness: a 20 MiB output of a 30 MiB input with equal durations of 100 s and
100 s validates, and the concrete trace holds no removal. -/
theorem validate_ok_iff_witness :
    (Validate "in.avi" "in.mkv" 31457280 (Except.ok 20971520)
      (Except.ok 100) (Except.ok 100)).1 = none ∧
    VOp.removeFile "in.mkv" ∉ (Validate "in.avi" "in.mkv" 31457280
      (Except.ok 20971520) (Except.ok 100) (Except.ok 100)).2 :=
  ⟨(validate_ok_iff "in.avi" "in.mkv" 31457280 (Except.ok 20971520)
      (Except.ok 100) (Except.ok 100)).1.mpr
    ⟨⟨20971520, rfl, by decide, by decide⟩,
     ⟨100, 100, rfl, rfl, by simp [maxDurationDrift]⟩⟩,
   (validate_ok_iff "in.avi" "in.mkv" 31457280 (Except.ok 20971520)
      (Except.ok 100) (Except.ok 100)).2 "in.mkv"⟩

/-! ## Claim C4 — prepareIndex generation rotation -/

/-- C4: for every initial state of the two index files, `prepareIndex`
installs — when both exist — the larger of the two (ties to the base file) as
the reader source in the `.idx.tmp` slot and removes the other, leaving the
base slot empty; when only one exists it becomes the reader source; when
neither exists the reader reads as an empty index. -/
theorem prepareIndex_spec (s : IdxFsState) :
    (∀ b t, s.base = some b → s.tmp = some t →
      (prepareIndex s).base = none ∧
      (∃ f, (prepareIndex s).tmp = some f ∧ f.size = max b.size t.size ∧
        (f = b ∨ f = t))) ∧
    (∀ b, s.base = some b → s.tmp = none →
      (prepareIndex s).base = none ∧ (prepareIndex s).tmp = some b) ∧
    (∀ t, s.base = none → s.tmp = some t → prepareIndex s = s) ∧
    (s.base = none → s.tmp = none →
      openReaderEntries (prepareIndex s).tmp = []) := by
  refine ⟨?_, ?_, ?_, ?_⟩
  · intro b t hb ht
    unfold prepareIndex
    rw [hb, ht]
    dsimp only
    by_cases h : b.size ≥ t.size
    · rw [if_pos h]
      exact ⟨rfl, b, rfl, by omega, Or.inl rfl⟩
    · rw [if_neg h]
      exact ⟨rfl, t, rfl, by omega, Or.inr rfl⟩
  · intro b hb ht
    unfold prepareIndex
    rw [hb, ht]
    exact ⟨rfl, rfl⟩
  · intro t hb ht
    unfold prepareIndex
    rw [hb, ht]
  · intro hb ht
    unfold prepareIndex
    rw [hb, ht, ht]
    rfl

/-- C4 witness: with a 100-byte base index and a 70-byte staging index, the
base becomes the reader source at the `.idx.tmp` slot and the staging copy
is gone; with neither file present the reader is empty. -/
theorem prepareIndex_spec_witness :
    ((prepareIndex ⟨some ⟨100, []⟩, some ⟨70, []⟩⟩).base = none ∧
      (∃ f, (prepareIndex ⟨some ⟨100, []⟩, some ⟨70, []⟩⟩).tmp = some f ∧
        f.size = max (100 : Int) 70 ∧
        (f = (⟨100, []⟩ : IdxFile) ∨ f = (⟨70, []⟩ : IdxFile)))) ∧
    openReaderEntries (prepareIndex ⟨none, none⟩).tmp = [] :=
  ⟨(prepareIndex_spec ⟨some ⟨100, []⟩, some ⟨70, []⟩⟩).1 ⟨100, []⟩ ⟨70, []⟩ rfl rfl,
   (prepareIndex_spec ⟨none, none⟩).2.2.2 rfl rfl⟩

/-! ## Claim C7 — acquireLock stale-lock protocol -/

/-- C7: when the lock file exists (first exclusive create fails with
"exists" and the stat yields `mtime`), an age `now - mtime` strictly below
`timeout` fails with "locked by another instance" and performs no removal,
while an age of `timeout` or more (the boundary counts as stale) removes the
lock and retries the exclusive create exactly once — two creates in total —
returning success or the retry's failure as the result. -/
theorem acquireLock_spec (ip : String) (timeout now mtime : Int) (sc : CreateRes) :
    (now - mtime < timeout →
      (acquireLock ip timeout now CreateRes.errExist (Except.ok mtime) sc).1 =
        Except.error "locked by another instance" ∧
      LockOp.removeLock (ip ++ ".flsq-lock") ∉
        (acquireLock ip timeout now CreateRes.errExist (Except.ok mtime) sc).2) ∧
    (timeout ≤ now - mtime →
      LockOp.removeLock (ip ++ ".flsq-lock") ∈
        (acquireLock ip timeout now CreateRes.errExist (Except.ok mtime) sc).2 ∧
      (acquireLock ip timeout now CreateRes.errExist (Except.ok mtime) sc).2.count
        (LockOp.create (ip ++ ".flsq-lock")) = 2 ∧
      (sc = CreateRes.ok →
        (acquireLock ip timeout now CreateRes.errExist (Except.ok mtime) sc).1 =
          Except.ok ()) ∧
      (sc = CreateRes.errExist →
        (acquireLock ip timeout now CreateRes.errExist (Except.ok mtime) sc).1 =
          Except.error "lock retry failed: file exists") ∧
      (∀ e, sc = CreateRes.errOther e →
        (acquireLock ip timeout now CreateRes.errExist (Except.ok mtime) sc).1 =
          Except.error ("lock retry failed: " ++ e))) := by
  constructor
  · intro h
    unfold acquireLock
    dsimp only
    rw [if_pos h]
    cases sc <;> simp
  · intro h
    unfold acquireLock
    dsimp only
    rw [if_neg (by omega)]
    cases sc <;> simp [List.count_cons]

/-- C7 witness: a lock whose age equals the timeout exactly (age 7, timeout
7) is stale: it is removed, the create is retried (two creates in total) and
the retry's success is returned. -/
theorem acquireLock_spec_witness :
    LockOp.removeLock ("/m/a.avi" ++ ".flsq-lock") ∈
      (acquireLock "/m/a.avi" 7 10 CreateRes.errExist (Except.ok 3)
        CreateRes.ok).2 ∧
    (acquireLock "/m/a.avi" 7 10 CreateRes.errExist (Except.ok 3)
      CreateRes.ok).2.count (LockOp.create ("/m/a.avi" ++ ".flsq-lock")) = 2 ∧
    (acquireLock "/m/a.avi" 7 10 CreateRes.errExist (Except.ok 3)
      CreateRes.ok).1 = Except.ok () := by
  have h := (acquireLock_spec "/m/a.avi" 7 10 3 CreateRes.ok).2 (by decide)
  exact ⟨h.1, h.2.1, h.2.2.1 rfl⟩

/-! ## Claim C2 — advanceTo merge-join semantics -/

theorem advanceTo_cons (p : String) (e : IdxEntry) (rest : IdxState)
    (path : String) (mod : GoTime) (size : Int) :
    advanceTo ((p, e) :: rest) path mod size =
      if strLtB (pathKey p) (pathKey path) then advanceTo rest path mod size
      else if p = path then
        if e.size = size ∧ e.modTime = mod.truncSec then ((e.codec, true), rest)
        else (("", false), rest)
      else (("", false), (p, e) :: rest) := rfl

/-- C2: `advanceTo(path, modTime, size)` consumes exactly the entries whose
`pathKey` sorts strictly below `pathKey path` (the remaining state starts at
the first entry at or past the key); it is a hit iff the cursor entry then
sits at exactly `path` with matching size and second-truncated mtime, in
which case the cached codec is returned; and whenever the cursor entry sits
at `path` it is consumed whether hit or miss, while a miss on any other
cursor leaves the cursor in place. -/
theorem advanceTo_spec (L : IdxState) (path : String) (mod : GoTime) (size : Int) :
    ((advanceTo L path mod size).1.2 = true ↔
      (∃ e, (L.dropWhile (fun pe => strLtB (pathKey pe.1) (pathKey path))).head? =
          some (path, e) ∧ e.size = size ∧ e.modTime = mod.truncSec)) ∧
    ((advanceTo L path mod size).1.2 = true →
      (∃ e, (L.dropWhile (fun pe => strLtB (pathKey pe.1) (pathKey path))).head? =
          some (path, e) ∧ (advanceTo L path mod size).1.1 = e.codec)) ∧
    ((∃ e, (L.dropWhile (fun pe => strLtB (pathKey pe.1) (pathKey path))).head? =
        some (path, e)) →
      (advanceTo L path mod size).2 =
        (L.dropWhile (fun pe => strLtB (pathKey pe.1) (pathKey path))).tail) ∧
    ((¬ ∃ e, (L.dropWhile (fun pe => strLtB (pathKey pe.1) (pathKey path))).head? =
        some (path, e)) →
      (advanceTo L path mod size).2 =
        L.dropWhile (fun pe => strLtB (pathKey pe.1) (pathKey path))) := by
  induction L with
  | nil => simp [advanceTo]
  | cons pe rest ih =>
    obtain ⟨p, e⟩ := pe
    by_cases hlt : strLtB (pathKey p) (pathKey path) = true
    · rw [advanceTo_cons, if_pos hlt, List.dropWhile_cons, if_pos hlt]
      exact ih
    · rw [advanceTo_cons, if_neg hlt, List.dropWhile_cons, if_neg hlt]
      by_cases hp : p = path
      · subst hp
        rw [if_pos rfl]
        by_cases hm : e.size = size ∧ e.modTime = mod.truncSec
        · rw [if_pos hm]
          refine ⟨?_, ?_, ?_, ?_⟩
          · constructor
            · intro _
              exact ⟨e, rfl, hm.1, hm.2⟩
            · intro _; rfl
          · intro _
            exact ⟨e, rfl, rfl⟩
          · intro _; rfl
          · intro hne
            exact absurd ⟨e, rfl⟩ hne
        · rw [if_neg hm]
          refine ⟨?_, ?_, ?_, ?_⟩
          · constructor
            · intro h
              exact (Bool.false_ne_true h).elim
            · rintro ⟨e', he', h1, h2⟩
              simp only [List.head?_cons, Option.some.injEq, Prod.mk.injEq] at he'
              rcases he' with ⟨-, rfl⟩
              exact absurd ⟨h1, h2⟩ hm
          · intro h
            exact (Bool.false_ne_true h).elim
          · intro _; rfl
          · intro hne
            exact absurd ⟨e, rfl⟩ hne
      · rw [if_neg hp]
        refine ⟨?_, ?_, ?_, ?_⟩
        · constructor
          · intro h
            exact (Bool.false_ne_true h).elim
          · rintro ⟨e', he', -, -⟩
            simp only [List.head?_cons, Option.some.injEq, Prod.mk.injEq] at he'
            exact absurd he'.1 hp
        · intro h
          exact (Bool.false_ne_true h).elim
        · rintro ⟨e', he'⟩
          simp only [List.head?_cons, Option.some.injEq, Prod.mk.injEq] at he'
          exact absurd he'.1 hp
        · intro _; rfl

/-- Concrete two-entry reader state used to witness the advanceTo claims. -/
def idxListW : IdxState :=
  [("a", ⟨"h264", ⟨1, 0⟩, 100⟩), ("b", ⟨"hevc", ⟨5, 0⟩, 200⟩)]

/-- C2 witness: on a concrete two-entry index, requesting path `"b"` with a
sub-second mtime component consumes the smaller-keyed entry, hits, and
advances past the match. -/
theorem advanceTo_spec_witness :
    (advanceTo idxListW "b" ⟨5, 123⟩ 200).1.2 = true ∧
    (advanceTo idxListW "b" ⟨5, 123⟩ 200).2 =
      (idxListW.dropWhile (fun pe => strLtB (pathKey pe.1) (pathKey "b"))).tail :=
  ⟨(advanceTo_spec idxListW "b" ⟨5, 123⟩ 200).1.mpr
      ⟨⟨"hevc", ⟨5, 0⟩, 200⟩, by decide, rfl, rfl⟩,
   (advanceTo_spec idxListW "b" ⟨5, 123⟩ 200).2.2.1
      ⟨⟨"hevc", ⟨5, 0⟩, 200⟩, by decide⟩⟩

/-! ## Claim C5 — an index hit suppresses the codec probe -/

/-- C5: whenever the prior index yields an `advanceTo` hit for the visited
file (same path, same size, same second-truncated mtime), the scanner's
visitor performs no codec probe on any path at all. -/
theorem scan_no_probe_on_hit (r : IdxState) (cutoff : GoTime) (f : FileVisit)
    (hhit : (advanceTo r f.path f.mod f.sz).1.2 = true) :
    ∀ q, Eff.probe q ∉ (visitFile r cutoff f).1 := by
  intro q
  unfold visitFile
  dsimp only
  split_ifs <;> simp_all

/-- C5 witness: a concrete hit (same path, size 200, mtime 5 s truncated)
suppresses the probe on the visited file. -/
theorem scan_no_probe_on_hit_witness :
    (advanceTo [("b.avi", ⟨"h264", ⟨5, 0⟩, 200⟩)] "b.avi" ⟨5, 123⟩ 200).1.2 = true ∧
    Eff.probe "b.avi" ∉ (visitFile [("b.avi", ⟨"h264", ⟨5, 0⟩, 200⟩)] ⟨999, 0⟩
      ⟨"b.avi", 200, ⟨5, 123⟩, true, false, false, false, Except.ok "hevc", ""⟩).1 :=
  ⟨by decide,
   scan_no_probe_on_hit [("b.avi", ⟨"h264", ⟨5, 0⟩, 200⟩)] ⟨999, 0⟩
     ⟨"b.avi", 200, ⟨5, 123⟩, true, false, false, false, Except.ok "hevc", ""⟩
     (by decide) "b.avi"⟩

/-! ## Claim C9 — the three-day freshness boundary -/

/-- C9 counterexample: the claim says a file whose mtime equals
`now − 3 days` (the cutoff) exactly is skipped as too fresh; in the code the
check is the strict `mod.After(cutoff)`, so such a file proceeds — at the
boundary the visitor probes and enqueues it. -/
theorem freshness_boundary_cex :
    GoTime.after ⟨1000, 0⟩ ⟨1000, 0⟩ = false ∧
    Eff.enqueue (mkCandidate "/m/a.avi" "h264" MinSize) ∈
      (visitFile [] ⟨1000, 0⟩ ⟨"/m/a.avi", MinSize, ⟨1000, 0⟩, true, false, false,
        false, Except.ok "h264", ""⟩).1 := by
  constructor
  · rfl
  · decide

/-- C9 (amended): for an eligible file (movie extension, not a work file,
not failed or locked, size at least `MinSize`, miss in the prior index, probe
succeeding with a non-`av1` codec, no existing output), a file whose mtime is
exactly `now − 3 days` — or any older file, i.e. whenever `After(cutoff)` is
false — proceeds and is enqueued; only files strictly newer than the cutoff
are skipped as too fresh. -/
theorem scan_freshness_boundary (path codec : String) (sz : Int) (mod cutoff : GoTime)
    (hext : movieExtensions.contains (toLowerStr (filepathExt path)) = true)
    (hwork : IsWorkFile (baseName path) = false)
    (hsz : MinSize ≤ sz)
    (hcodec : toLowerStr codec ≠ "av1") :
    (GoTime.after mod cutoff = false →
      Eff.enqueue (mkCandidate path (toLowerStr codec) sz) ∈
        (visitFile [] cutoff ⟨path, sz, mod, true, false, false, false,
          Except.ok codec, ""⟩).1) ∧
    (GoTime.after mod cutoff = true →
      (visitFile [] cutoff ⟨path, sz, mod, true, false, false, false,
        Except.ok codec, ""⟩).1 = []) := by
  have hnotlt : ¬ (sz < MinSize) := not_lt.mpr hsz
  have hmem : toLowerStr (filepathExt path) ∈ movieExtensions := by
    simpa using hext
  constructor
  · intro hafter
    simp [visitFile, hmem, hwork, hafter, hnotlt, advanceTo, hcodec]
  · intro hafter
    simp [visitFile, hmem, hwork, hafter, hnotlt, advanceTo, hcodec]

/-- C9 witness: with a cutoff of 1000 s, a file whose mtime is exactly
1000 s is enqueued, and a file at 1001 s (strictly newer) produces no
effects. -/
theorem scan_freshness_boundary_witness :
    Eff.enqueue (mkCandidate "/m/b.avi" (toLowerStr "h264") MinSize) ∈
      (visitFile [] ⟨1000, 0⟩ ⟨"/m/b.avi", MinSize, ⟨1000, 0⟩, true, false, false,
        false, Except.ok "h264", ""⟩).1 ∧
    (visitFile [] ⟨1000, 0⟩ ⟨"/m/b.avi", MinSize, ⟨1001, 0⟩, true, false, false,
      false, Except.ok "h264", ""⟩).1 = [] :=
  ⟨(scan_freshness_boundary "/m/b.avi" "h264" MinSize ⟨1000, 0⟩ ⟨1000, 0⟩
      (by decide) (by decide) (by decide) (by decide)).1 rfl,
   (scan_freshness_boundary "/m/b.avi" "h264" MinSize ⟨1001, 0⟩ ⟨1000, 0⟩
      (by decide) (by decide) (by decide) (by decide)).2 rfl⟩

/-! ## Claim C8 — waste scores -/

theorem charToLower_eq (c : Char) :
    c.toLower = if 65 ≤ c.toNat ∧ c.toNat ≤ 90 then Char.ofNat (c.toNat + 32) else c := rfl

theorem charToLower_idem (c : Char) : c.toLower.toLower = c.toLower := by
  by_cases h : 65 ≤ c.toNat ∧ c.toNat ≤ 90
  · have h1 : c.toLower = Char.ofNat (c.toNat + 32) := by
      rw [charToLower_eq, if_pos h]
    rw [h1]
    obtain ⟨h65, h90⟩ := h
    generalize hgen : c.toNat = n at h65 h90 ⊢
    interval_cases n <;> decide
  · have h1 : c.toLower = c := by
      rw [charToLower_eq, if_neg h]
    rw [h1]
    exact h1

theorem toLowerStr_idem (s : String) : toLowerStr (toLowerStr s) = toLowerStr s := by
  show String.mk ((s.data.map Char.toLower).map Char.toLower) =
    String.mk (s.data.map Char.toLower)
  rw [List.map_map]
  congr 1
  apply List.map_congr_left
  intro a _
  exact charToLower_idem a

/-- C8: waste scores (held in exact tenths of the source's one-decimal float
multipliers). The multiplier table maps mpeg1video and mpeg2video to 4.0,
the msmpeg4 and wmv families to 3.5, mpeg4 to 3.0, vp8 to 2.5, h264 to 2.0,
hevc to 1.4, vp9 to 1.3, and every other codec to 2.0; the lookup is
case-insensitive in the codec name; every candidate the scanner enqueues
carries `wasteScore = size × multiplier(codec)`; equal sizes and codecs give
equal scores; and at equal positive size the score ordering of two codecs
follows the multiplier table. -/
theorem wasteScore_spec :
    (codecWasteMultiplier "mpeg1video" = 40 ∧ codecWasteMultiplier "mpeg2video" = 40 ∧
     codecWasteMultiplier "msmpeg4v1" = 35 ∧ codecWasteMultiplier "msmpeg4v2" = 35 ∧
     codecWasteMultiplier "msmpeg4v3" = 35 ∧ codecWasteMultiplier "wmv1" = 35 ∧
     codecWasteMultiplier "wmv2" = 35 ∧ codecWasteMultiplier "wmv3" = 35 ∧
     codecWasteMultiplier "mpeg4" = 30 ∧ codecWasteMultiplier "vp8" = 25 ∧
     codecWasteMultiplier "h264" = 20 ∧ codecWasteMultiplier "hevc" = 14 ∧
     codecWasteMultiplier "vp9" = 13) ∧
    (∀ c, codecWasteMultiplier c = codecWasteMultiplier (toLowerStr c)) ∧
    (∀ c, codecWaste.lookup (toLowerStr c) = none → codecWasteMultiplier c = 20) ∧
    (∀ r cutoff f cand, Eff.enqueue cand ∈ (visitFile r cutoff f).1 →
      cand.wasteScore = cand.size * codecWasteMultiplier cand.codec) ∧
    (∀ p1 p2 c sz, (mkCandidate p1 c sz).wasteScore = (mkCandidate p2 c sz).wasteScore) ∧
    (∀ (p1 p2 c1 c2 : String) (sz : Int), 0 < sz →
      codecWasteMultiplier c1 < codecWasteMultiplier c2 →
      (mkCandidate p1 c1 sz).wasteScore < (mkCandidate p2 c2 sz).wasteScore) := by
  refine ⟨by decide, ?_, ?_, ?_, ?_, ?_⟩
  · intro c
    unfold codecWasteMultiplier
    rw [toLowerStr_idem]
  · intro c hl
    unfold codecWasteMultiplier
    rw [hl]
  · intro r cutoff f cand h
    unfold visitFile at h
    dsimp only at h
    repeat' split at h
    all_goals simp_all [mkCandidate]
  · intro p1 p2 c sz
    rfl
  · intro p1 p2 c1 c2 sz hsz hm
    show sz * codecWasteMultiplier c1 < sz * codecWasteMultiplier c2
    exact mul_lt_mul_of_pos_left hm hsz

/-- C8 witness: at equal size 100, a vp9 file scores below an mpeg4 file,
and a concretely enqueued h264 candidate carries size times the h264
multiplier. -/
theorem wasteScore_spec_witness :
    (mkCandidate "x.avi" "vp9" 100).wasteScore <
      (mkCandidate "y.avi" "mpeg4" 100).wasteScore ∧
    (mkCandidate "/m/a.avi" (toLowerStr "h264") MinSize).wasteScore =
      (mkCandidate "/m/a.avi" (toLowerStr "h264") MinSize).size *
        codecWasteMultiplier (mkCandidate "/m/a.avi" (toLowerStr "h264") MinSize).codec :=
  ⟨wasteScore_spec.2.2.2.2.2 "x.avi" "y.avi" "vp9" "mpeg4" 100 (by decide) (by decide),
   wasteScore_spec.2.2.2.1 [] ⟨1000, 0⟩
     ⟨"/m/a.avi", MinSize, ⟨1000, 0⟩, true, false, false, false, Except.ok "h264", ""⟩
     (mkCandidate "/m/a.avi" (toLowerStr "h264") MinSize) (by decide)⟩

/-! ## Claim C6 — foreign outputs are never touched -/

/-- C6: when the candidate's output path exists and its probed container
comment is not one of the two tool tags, `processCandidate` performs at most
the comment probe — it never removes a file, marks the candidate failed,
encodes, or finalizes, so the foreign output file is left untouched. -/
theorem no_foreign_output_touched (c : Candidate) (env : ProcEnv)
    (he : env.outExists = true) (hc : IsOurComment env.outComment = false) :
    (processCandidate c env = [] ∨
      processCandidate c env = [OOp.readComment (OutputPath c.path)]) ∧
    (∀ q, OOp.removeFile q ∉ processCandidate c env) ∧
    (∀ q, OOp.markFailed q ∉ processCandidate c env) ∧
    (∀ i o, OOp.encode i o ∉ processCandidate c env) ∧
    (∀ i o, OOp.finishConv i o ∉ processCandidate c env) := by
  have hred : processCandidate c env = [] ∨
      processCandidate c env = [OOp.readComment (OutputPath c.path)] := by
    unfold processCandidate
    cases env.lockRes with
    | error e => exact Or.inl rfl
    | ok u =>
      cases env.statIn with
      | error e => exact Or.inl rfl
      | ok sz =>
        dsimp only
        by_cases hsz : sz ≠ c.size
        · rw [if_pos hsz]
          exact Or.inl rfl
        · rw [if_neg hsz, he]
          rw [if_pos rfl, if_pos hc]
          exact Or.inr rfl
  refine ⟨hred, ?_, ?_, ?_, ?_⟩ <;>
    · intros
      rcases hred with h | h <;> rw [h] <;> simp

/-- C6 witness: a concrete candidate whose output exists with the foreign
comment "not ours" results in only the comment probe; nothing is removed and
no failure is recorded. -/
theorem no_foreign_output_touched_witness :
    (processCandidate ⟨"a.avi", 100, "h264", 2000⟩
        ⟨Except.ok (), Except.ok 100, true, "not ours", none, none, none, false⟩ = [] ∨
      processCandidate ⟨"a.avi", 100, "h264", 2000⟩
        ⟨Except.ok (), Except.ok 100, true, "not ours", none, none, none, false⟩ =
        [OOp.readComment (OutputPath "a.avi")]) ∧
    OOp.removeFile (OutputPath "a.avi") ∉
      processCandidate ⟨"a.avi", 100, "h264", 2000⟩
        ⟨Except.ok (), Except.ok 100, true, "not ours", none, none, none, false⟩ ∧
    OOp.markFailed "a.avi" ∉
      processCandidate ⟨"a.avi", 100, "h264", 2000⟩
        ⟨Except.ok (), Except.ok 100, true, "not ours", none, none, none, false⟩ :=
  ⟨(no_foreign_output_touched ⟨"a.avi", 100, "h264", 2000⟩
      ⟨Except.ok (), Except.ok 100, true, "not ours", none, none, none, false⟩
      rfl (by decide)).1,
   (no_foreign_output_touched ⟨"a.avi", 100, "h264", 2000⟩
      ⟨Except.ok (), Except.ok 100, true, "not ours", none, none, none, false⟩
      rfl (by decide)).2.1 (OutputPath "a.avi"),
   (no_foreign_output_touched ⟨"a.avi", 100, "h264", 2000⟩
      ⟨Except.ok (), Except.ok 100, true, "not ours", none, none, none, false⟩
      rfl (by decide)).2.2.1 "a.avi"⟩
